import Mathlib

/-!
Verification of the "16 Parchi Dhap" turn-engine against its two source
drafts.

* `game.py` (Variant A, "pass-and-swap queue"): class `ParchiDhapGame`
  with `__init__`, `get_current`, `pass_card`.
* `bot.py` (Variant B, "give/accept-reject handshake"): class
  `ParchiDhapGame` with `__init__`/`create_deck`, `add_player`,
  `start_game`, `deal_cards`, `get_current_player`, `get_next_player`,
  `give_card`, `receive_card`, `check_win`, plus the `button_callback`
  handler that guards the two operations by actor.

Modelling conventions (shallow embedding):

* Python dicts keyed by a player id (`hands`, `player_cards`,
  `player_names`) are modelled positionally: entry `i` belongs to
  `players[i]` (player ids are unique, and every access in the source
  goes through `players[current_index]` / `players[next_index]`).
* `random.shuffle(deck)` is modelled by passing in an arbitrary deck
  together with the hypothesis that it is a permutation of the unshuffled
  deck.
* `list.remove(x)` removes the first occurrence, i.e. `List.erase`.
  `receive_card` in `bot.py` calls `.remove` on an element that may be
  absent, in which case Python raises `ValueError` before any mutation;
  `receive_card` therefore returns an `Option`, `none` being the raise.
* Raised `ValueError`s in `pass_card` are modelled with `Except String`;
  the message text is kept (sans punctuation Lean cannot quote).
-/

/-- The unshuffled deck built by `game.py` lines 8-10 and by
`bot.py` `create_deck`: four copies of each rank `1..n`, rank 1 first. -/
def mkDeck : Nat → List Nat
  | 0 => []
  | n + 1 => mkDeck n ++ List.replicate 4 (n + 1)

/-- State of the Variant A game (`game.py` `ParchiDhapGame`).
`hands` is positional: `hands[i]` is the hand of `players[i]`. -/
structure GameA where
  players : List Nat
  hands : List (List Nat)
  previous_card : Option Nat
  current_index : Nat
  winner : Option Nat
deriving DecidableEq, Repr

/-- `game.py` line 12: each player takes 4 cards off the END of the deck
(`deck.pop()`); `dealA d k` deals `k` hands off the front of `d`, so it is
applied to the reversed deck. -/
def dealA : List Nat → Nat → List (List Nat)
  | _, 0 => []
  | d, k + 1 => d.take 4 :: dealA (d.drop 4) k

/-- `game.py` `__init__` (lines 5-15), with the shuffled deck passed in. -/
def initGameA (players : List Nat) (deck : List Nat) : GameA :=
  { players := players
    hands := dealA deck.reverse players.length
    previous_card := none
    current_index := 0
    winner := none }

/-- `game.py` `get_current` (line 17): `self.players[self.current_index]`. -/
def getCurrentA (g : GameA) : Nat := g.players.getD g.current_index 0

/-- The hand of the player at `current_index` (Variant A). -/
def currentHandA (g : GameA) : List Nat := g.hands.getD g.current_index []

/-- The win test applied inline at `game.py` line 29:
`len(set(hand)) == 1`. -/
def winTestA (hand : List Nat) : Bool := hand.dedup.length == 1

/-- `game.py` `pass_card` (lines 19-32). Returns the raised `ValueError`
message on failure, and on success the new state together with the
returned pair `(hand, self.winner)`. -/
def passCard (g : GameA) (user_id card : Nat) :
    Except String (GameA × List Nat × Option Nat) :=
  if user_id ≠ getCurrentA g then .error "Not your turn"
  else
    let hand := currentHandA g
    if card ∉ hand then .error "You do not have that card"
    else
      let hand1 := hand.erase card
      let hand2 := hand1 ++ g.previous_card.toList
      let w := if winTestA hand2 then some user_id else g.winner
      let g' : GameA :=
        { players := g.players
          hands := g.hands.set g.current_index hand2
          previous_card := some card
          current_index := (g.current_index + 1) % g.players.length
          winner := w }
      .ok (g', hand2, w)

/-- State of the Variant B game (`bot.py` `ParchiDhapGame`). `player_cards`
and `player_names` are positional over `players` (see module docstring);
the `chat_id` field carries no game logic and is omitted. -/
structure GameB where
  n : Nat
  players : List Nat
  player_names : List String
  deck : List Nat
  player_cards : List (List Nat)
  current_player_index : Nat
  game_started : Bool
  pending_card : Option Nat
  pending_from_player : Option Nat
  game_finished : Bool
  winner : Option Nat
deriving DecidableEq, Repr

/-- `bot.py` `__init__` + `create_deck` (lines 20-43), with the shuffled
deck passed in. -/
def mkGameB (n : Nat) (deck : List Nat) : GameB :=
  { n := n
    players := []
    player_names := []
    deck := deck
    player_cards := []
    current_player_index := 0
    game_started := false
    pending_card := none
    pending_from_player := none
    game_finished := false
    winner := none }

/-- `bot.py` `add_player` (lines 45-51). -/
def add_player (g : GameB) (user_id : Nat) (name : String) : GameB × Bool :=
  if user_id ∉ g.players ∧ g.players.length < g.n then
    ({ g with players := g.players ++ [user_id]
              player_names := g.player_names ++ [name] }, true)
  else (g, false)

/-- `bot.py` `deal_cards` (lines 61-67): player `i` gets
`deck[4*i : 4*i + 4]`. -/
def deal_cards (g : GameB) : GameB :=
  { g with player_cards :=
      (List.range g.players.length).map fun i => (g.deck.drop (4 * i)).take 4 }

/-- `bot.py` `start_game` (lines 53-59). -/
def start_game (g : GameB) : GameB × Bool :=
  if 4 ≤ g.players.length ∧ g.game_started = false then
    ({ deal_cards g with game_started := true }, true)
  else (g, false)

/-- `bot.py` `get_current_player` (lines 69-71). -/
def get_current_player (g : GameB) : Nat :=
  g.players.getD g.current_player_index 0

/-- `bot.py` `get_next_player` (lines 73-76). -/
def get_next_player (g : GameB) : Nat :=
  g.players.getD ((g.current_player_index + 1) % g.players.length) 0

/-- The hand of the player at `current_player_index` (Variant B). -/
def currentHandB (g : GameB) : List Nat :=
  g.player_cards.getD g.current_player_index []

/-- `bot.py` `give_card` (lines 78-87): only checks that the card is in
the current player's hand; marks it pending without touching any hand. -/
def give_card (g : GameB) (card : Nat) : GameB × Bool :=
  if card ∈ currentHandB g then
    ({ g with pending_card := some card
              pending_from_player := some (get_current_player g) }, true)
  else (g, false)

/-- `bot.py` `check_win` (lines 115-120) applied to a hand:
false on the empty hand, else `len(set(cards)) == 1`. -/
def check_win_hand (cards : List Nat) : Bool :=
  if cards.length = 0 then false else cards.dedup.length == 1

/-- `bot.py` `receive_card` (lines 89-113). `none` models the uncaught
`ValueError` from `.remove` when the pending card is not in the giver's
hand (the raise happens before any mutation). On accept the giver's hand
loses the card, the next player's hand gains it, and if the giver's
remaining hand wins the function returns EARLY: the winner and
`game_finished` are set but `current_player_index` is NOT advanced and
the pending card is NOT cleared. -/
def receive_card (g : GameB) (accept : Bool) : Option (GameB × Bool) :=
  match g.pending_card with
  | none => some (g, false)
  | some pc =>
    let cur := g.current_player_index
    let nxt := (cur + 1) % g.players.length
    if accept then
      if pc ∈ g.player_cards.getD cur [] then
        let cards1 := g.player_cards.set cur ((g.player_cards.getD cur []).erase pc)
        let cards2 := cards1.set nxt (cards1.getD nxt [] ++ [pc])
        let g1 := { g with player_cards := cards2 }
        if check_win_hand (g1.player_cards.getD cur []) then
          some ({ g1 with winner := some (get_current_player g1)
                          game_finished := true }, true)
        else
          some ({ g1 with current_player_index := nxt
                          pending_card := none
                          pending_from_player := none }, true)
      else none
    else
      some ({ g with current_player_index := nxt
                     pending_card := none
                     pending_from_player := none }, true)

/-- The give branch of `bot.py` `button_callback` (lines 297-322): the
actor must be the current player before `give_card` runs; otherwise the
state is untouched and the handler answers with a turn error. Message
texts are abbreviated. -/
def giveButton (g : GameB) (user_id card : Nat) : GameB × String :=
  if user_id = get_current_player g then
    let r := give_card g card
    if r.2 then (r.1, "gave") else (r.1, "Invalid card selection")
  else (g, "It is not your turn")

/-- The accept/reject branch of `bot.py` `button_callback`
(lines 324-341): the actor must be the NEXT player before `receive_card`
runs; otherwise the state is untouched. `crash` stands for the
uncaught `ValueError` escaping `receive_card`. -/
def receiveButton (g : GameB) (user_id : Nat) (accept : Bool) :
    GameB × String :=
  if user_id = get_next_player g then
    match receive_card g accept with
    | none => (g, "crash")
    | some (g', _) => (g', if accept then "accepted" else "rejected")
  else (g, "This is not for you")

deriving instance DecidableEq for Except

/-- The Variant A scenario start state of spec section 8: players A,B,C,D
are the ids 10,11,12,13, hands pre-seeded rank-per-player. -/
def SA0 : GameA :=
  { players := [10, 11, 12, 13]
    hands := [[1, 1, 1, 1], [2, 2, 2, 2], [3, 3, 3, 3], [4, 4, 4, 4]]
    previous_card := none
    current_index := 0
    winner := none }

/-- The state `pass_card(10, 1)` produces from `SA0`: note the code has
already declared player 10 the winner (hand `[1,1,1]` is all-identical). -/
def SA1 : GameA :=
  { players := [10, 11, 12, 13]
    hands := [[1, 1, 1], [2, 2, 2, 2], [3, 3, 3, 3], [4, 4, 4, 4]]
    previous_card := some 1
    current_index := 1
    winner := some 10 }

/-- The state `pass_card(11, 2)` produces from `SA1`. -/
def SA2 : GameA :=
  { players := [10, 11, 12, 13]
    hands := [[1, 1, 1], [2, 2, 2, 1], [3, 3, 3, 3], [4, 4, 4, 4]]
    previous_card := some 2
    current_index := 2
    winner := some 10 }

/-- A Variant B lobby: four players joined on the identity-shuffled deck. -/
def lobby4 : GameB :=
  (add_player (add_player (add_player (add_player
    (mkGameB 4 (mkDeck 4)) 10 "A").1 11 "B").1 12 "C").1 13 "D").1

/-- The started game from `lobby4`: hands `[1,1,1,1]`, `[2,2,2,2]`,
`[3,3,3,3]`, `[4,4,4,4]`. -/
def gB4 : GameB := (start_game lobby4).1

/-- `gB4` after the current player (10) gives card 1: the card is pending
but still in the giver's hand. -/
def gPend : GameB := (give_card gB4 1).1

/-- The state `receive_card(accept=true)` produces from `gPend`: player 10
wins (remaining hand `[1,1,1]`), `current_player_index` is still 0 and the
pending card is still set because of the early return. -/
def gWin : GameB :=
  { n := 4
    players := [10, 11, 12, 13]
    player_names := ["A", "B", "C", "D"]
    deck := mkDeck 4
    player_cards := [[1, 1, 1], [2, 2, 2, 2, 1], [3, 3, 3, 3], [4, 4, 4, 4]]
    current_player_index := 0
    game_started := true
    pending_card := some 1
    pending_from_player := some 10
    game_finished := true
    winner := some 10 }

/-- The state a further `receive_card(accept=true)` produces from `gWin`:
the stale pending card 1 is moved again (hands `[1,1]` and
`[2,2,2,2,1,1]`), the winner stays player 10. -/
def gWin2 : GameB :=
  { n := 4
    players := [10, 11, 12, 13]
    player_names := ["A", "B", "C", "D"]
    deck := mkDeck 4
    player_cards := [[1, 1], [2, 2, 2, 2, 1, 1], [3, 3, 3, 3], [4, 4, 4, 4]]
    current_player_index := 0
    game_started := true
    pending_card := some 1
    pending_from_player := some 10
    game_finished := true
    winner := some 10 }

/-- A different shuffle of the 4-player deck, dealing `[1,2,3,4]` to every
player (so no accept immediately wins). -/
def deckX : List Nat := [1, 2, 3, 4, 1, 2, 3, 4, 1, 2, 3, 4, 1, 2, 3, 4]

/-- A Variant B lobby over `deckX`. -/
def lobbyX : GameB :=
  (add_player (add_player (add_player (add_player
    (mkGameB 4 deckX) 10 "A").1 11 "B").1 12 "C").1 13 "D").1

/-- The started game from `lobbyX`: every hand is `[1,2,3,4]`. -/
def gBX : GameB := (start_game lobbyX).1

/-- `gBX` after the current player (10) gives card 1. -/
def gPendX : GameB := (give_card gBX 1).1

/-- Card count of a Variant A state as the claimed conservation law reads
it: all hands plus the card in transit (`previous_card`). -/
def totalA (g : GameA) : Nat :=
  (g.hands.map List.length).sum + g.previous_card.toList.length

/-- Card count across the hands of a Variant B state. The pending card of
`bot.py` stays inside the giver's hand until accepted, so the hands alone
carry every card. -/
def totalB (g : GameB) : Nat := (g.player_cards.map List.length).sum

/-- States of Variant A reachable from initialization (over any shuffle)
by successful `pass_card` moves. -/
inductive ReachA : GameA → Prop where
  | init (players deck : List Nat) (hd : deck.Perm (mkDeck players.length)) :
      ReachA (initGameA players deck)
  | step (g g' : GameA) (u c : Nat) (h : List Nat) (w : Option Nat)
      (hg : ReachA g) (hs : passCard g u c = .ok (g', h, w)) : ReachA g'

/-- Pre-start Variant B states: a fresh `ParchiDhapGame` (over any
shuffle) followed by `add_player` calls. -/
inductive LobbyB : GameB → Prop where
  | init (n : Nat) (deck : List Nat) (hd : deck.Perm (mkDeck n)) :
      LobbyB (mkGameB n deck)
  | join (g : GameB) (u : Nat) (nm : String) (hg : LobbyB g) :
      LobbyB (add_player g u nm).1

/-- States of Variant B reachable from a successfully started game by
`give_card` / `receive_card` calls that do not raise. -/
inductive ReachB : GameB → Prop where
  | start (g : GameB) (hg : LobbyB g) (hs : (start_game g).2 = true) :
      ReachB (start_game g).1
  | give (g : GameB) (c : Nat) (hg : ReachB g) (hs : (give_card g c).2 = true) :
      ReachB (give_card g c).1
  | recv (g g' : GameB) (a b : Bool) (hg : ReachB g)
      (hs : receive_card g a = some (g', b)) : ReachB g'

theorem dedup_length_one_iff (l : List Nat) :
    l.dedup.length = 1 ↔ l ≠ [] ∧ ∃ v, ∀ x ∈ l, x = v := by
  constructor
  · intro h
    obtain ⟨a, ha⟩ := List.length_eq_one.mp h
    refine ⟨?_, a, ?_⟩
    · intro hnil
      rw [hnil] at ha
      simp at ha
    · intro x hx
      have hm : x ∈ l.dedup := List.mem_dedup.mpr hx
      rw [ha] at hm
      simpa using hm
  · rintro ⟨hne, v, hall⟩
    have hnd := l.nodup_dedup
    cases hd : l.dedup with
    | nil => exact absurd ((List.dedup_eq_nil l).mp hd) hne
    | cons a t =>
      cases t with
      | nil => rfl
      | cons b t2 =>
        exfalso
        rw [hd] at hnd
        have ha : a = v := hall a (List.mem_dedup.mp (by rw [hd]; simp))
        have hb : b = v := hall b (List.mem_dedup.mp (by rw [hd]; simp))
        have hab : a ≠ b := by
          have hc := List.nodup_cons.mp hnd
          intro he
          exact hc.1 (he ▸ List.mem_cons_self b t2)
        exact hab (ha.trans hb.symm)

theorem mkDeck_length (n : Nat) : (mkDeck n).length = 4 * n := by
  induction n with
  | zero => rfl
  | succ k ih => simp [mkDeck, ih]; omega

theorem mkDeck_count (n v : Nat) :
    (mkDeck n).count v = if 1 ≤ v ∧ v ≤ n then 4 else 0 := by
  induction n with
  | zero =>
    simp only [mkDeck, List.count_nil]
    rw [if_neg (by omega)]
  | succ k ih =>
    simp only [mkDeck, List.count_append, ih, List.count_replicate, beq_iff_eq]
    by_cases h1 : k + 1 = v
    · rw [if_pos h1, if_neg (by omega), if_pos (by omega)]
    · by_cases h2 : 1 ≤ v ∧ v ≤ k
      · rw [if_neg h1, if_pos h2, if_pos (by omega)]
      · rw [if_neg h1, if_neg h2, if_neg (by omega)]

theorem dealA_flatten (d : List Nat) (k : Nat) :
    (dealA d k).flatten = d.take (4 * k) := by
  induction k generalizing d with
  | zero => simp [dealA]
  | succ m ih =>
    have h4 : 4 * (m + 1) = 4 + 4 * m := by omega
    simp [dealA, ih, h4, List.take_add]

theorem dealA_length (d : List Nat) (k : Nat) : (dealA d k).length = k := by
  induction k generalizing d with
  | zero => rfl
  | succ m ih => simp [dealA, ih]

theorem dealA_mem_length (d : List Nat) (k : Nat) (h : List Nat)
    (hk : 4 * k ≤ d.length) (hm : h ∈ dealA d k) : h.length = 4 := by
  induction k generalizing d with
  | zero => simp [dealA] at hm
  | succ m ih =>
    simp only [dealA, List.mem_cons] at hm
    rcases hm with rfl | hm
    · simp; omega
    · exact ih (d.drop 4) (by simp; omega) hm

theorem dealtB_flatten (d : List Nat) (k : Nat) :
    ((List.range k).map fun i => (d.drop (4 * i)).take 4).flatten
      = d.take (4 * k) := by
  induction k with
  | zero => simp
  | succ m ih =>
    rw [List.range_succ]
    simp only [List.map_append, List.map_cons, List.map_nil,
      List.flatten_append, ih]
    have h4 : 4 * (m + 1) = 4 * m + 4 := by omega
    simp [h4, List.take_add]

theorem dealtB_mem_length (d : List Nat) (k : Nat) (h : List Nat)
    (hk : 4 * k ≤ d.length)
    (hm : h ∈ (List.range k).map fun i => (d.drop (4 * i)).take 4) :
    h.length = 4 := by
  simp only [List.mem_map, List.mem_range] at hm
  obtain ⟨i, hi, rfl⟩ := hm
  simp
  omega

theorem sum_map_length_set (l : List (List Nat)) (i : Nat) (x : List Nat)
    (hi : i < l.length) :
    (((l.set i x).map List.length).sum + (l.getD i []).length
      = (l.map List.length).sum + x.length) := by
  induction l generalizing i with
  | nil => simp at hi
  | cons a t ih =>
    cases i with
    | zero => simp [List.set, List.getD]; omega
    | succ j =>
      simp only [List.set, List.map_cons, List.sum_cons, List.getD_cons_succ]
      have := ih j (by simpa using hi)
      omega

theorem mem_getD_lt (l : List (List Nat)) (i : Nat) (c : Nat)
    (hm : c ∈ l.getD i []) : i < l.length := by
  by_contra hle
  rw [List.getD_eq_default] at hm
  · simp at hm
  · omega

/-- C2 counterexample: the claim asserts hand `[2,2,2]` is not a win, but
the win check of both variants judges `[2,2,2]` winning (one distinct
value, non-empty; neither check requires 4 cards). -/
theorem C2_counterexample :
    winTestA [2, 2, 2] = true ∧ check_win_hand [2, 2, 2] = true := by decide

/-- C2 amended: a hand is judged winning iff it is non-empty and all its
cards have one distinct value, under both the `pass_card` inline check and
`check_win`; `[2,2,2,2]` wins, `[2,3,2,2]` does not, and `[2,2,2]` DOES
win (the checks do not require the hand to have 4 cards). -/
theorem C2_win_check :
    (∀ h : List Nat,
      (winTestA h = true ↔ h ≠ [] ∧ ∃ v, ∀ x ∈ h, x = v) ∧
      (check_win_hand h = true ↔ h ≠ [] ∧ ∃ v, ∀ x ∈ h, x = v)) ∧
    winTestA [2, 2, 2, 2] = true ∧ check_win_hand [2, 2, 2, 2] = true ∧
    winTestA [2, 3, 2, 2] = false ∧ check_win_hand [2, 3, 2, 2] = false ∧
    winTestA [2, 2, 2] = true ∧ check_win_hand [2, 2, 2] = true := by
  refine ⟨fun h => ⟨?_, ?_⟩, by decide, by decide, by decide, by decide,
    by decide, by decide⟩
  · simp only [winTestA, beq_iff_eq]
    exact dedup_length_one_iff h
  · by_cases h0 : h.length = 0
    · have he : h = [] := List.length_eq_zero.mp h0
      subst he
      simp [check_win_hand]
    · simp only [check_win_hand, if_neg h0, beq_iff_eq]
      exact dedup_length_one_iff h

/-- C2 witness: instantiating the amended characterization at `[7,7]`. -/
theorem C2_witness : winTestA [7, 7] = true :=
  (C2_win_check.1 [7, 7]).1.mpr ⟨by decide, 7, by decide⟩

/-- C5 counterexample: the claim says neither of the two scenario moves
declares a winner, but after A (id 10) passes card 1 the code declares A
the winner: the hand `[1,1,1]` left after discarding is all-identical. -/
theorem C5_counterexample :
    passCard SA0 10 1 = Except.ok (SA1, [1, 1, 1], some 10) ∧
    SA1.winner = some 10 := by decide

/-- C5 amended: in the scenario, A passing card 1 leaves hand `[1,1,1]`,
sets `previousCard = 1` and moves the turn to B, but also declares A the
winner; B passing card 2 then yields hand `[2,2,2,1]` and moves the turn
to C, with A still recorded as winner. -/
theorem C5_scenario :
    passCard SA0 10 1 = Except.ok (SA1, [1, 1, 1], some 10) ∧
    SA1.hands.getD 0 [] = [1, 1, 1] ∧
    SA1.previous_card = some 1 ∧
    SA1.current_index = 1 ∧
    SA1.winner = some 10 ∧
    passCard SA1 11 2 = Except.ok (SA2, [2, 2, 2, 1], some 10) ∧
    SA2.hands.getD 1 [] = [2, 2, 2, 1] ∧
    SA2.current_index = 2 ∧
    SA2.winner = some 10 := by decide

/-- C4 counterexample: with card 1 already pending, a second `give_card`
of a held card succeeds and silently overwrites the pending card, where
the claim says it must fail. -/
theorem C4_counterexample :
    gPendX.pending_card = some 1 ∧
    (give_card gPendX 2).2 = true ∧
    (give_card gPendX 2).1.pending_card = some 2 := by decide

/-- C4 amended: `give_card` marks the card pending (with its giver)
without mutating any hand, and fails — leaving the whole state
unchanged — exactly when the card is not in the current player's hand; it
does NOT fail when a card is already pending (the pending card is simply
overwritten). -/
theorem C4_give_card (g : GameB) (card : Nat) :
    ((give_card g card).2 = true ↔ card ∈ currentHandB g) ∧
    (give_card g card).1.player_cards = g.player_cards ∧
    ((give_card g card).2 = true →
      (give_card g card).1.pending_card = some card ∧
      (give_card g card).1.pending_from_player = some (get_current_player g)) ∧
    ((give_card g card).2 = false → (give_card g card).1 = g) := by
  unfold give_card
  split_ifs with h
  · exact ⟨by simpa using h, rfl, fun _ => ⟨rfl, rfl⟩, fun hf => by simp at hf⟩
  · exact ⟨by simpa using h, rfl, fun ht => by simp at ht, fun _ => rfl⟩

/-- C4 witness: instantiating the amended contract on the started game. -/
theorem C4_witness : (give_card gB4 1).2 = true :=
  (C4_give_card gB4 1).1.mpr (by decide)

/-- C6: moving a card that is not in the acting (current) player's hand
fails — `pass_card` raises "You do not have that card", `give_card`
returns `False` — and the state is exactly as before the call. -/
theorem C6_card_not_held :
    (∀ (g : GameA) (c : Nat), g.current_index < g.players.length →
        c ∉ currentHandA g →
        passCard g (getCurrentA g) c = .error "You do not have that card") ∧
    (∀ (g : GameB) (c : Nat), g.current_player_index < g.players.length →
        c ∉ currentHandB g → give_card g c = (g, false)) := by
  constructor
  · intro g c _ hc
    simp [passCard, hc]
  · intro g c _ hc
    simp [give_card, hc]

/-- C6 witness: player 10 holds only 1s in `SA0` and gB4, so moving 5
resp. 9 fails. -/
theorem C6_witness :
    passCard SA0 (getCurrentA SA0) 5 = .error "You do not have that card" ∧
    give_card gB4 9 = (gB4, false) :=
  ⟨C6_card_not_held.1 SA0 5 (by decide) (by decide),
   C6_card_not_held.2 gB4 9 (by decide) (by decide)⟩

/-- C7 counterexample: player 11 is not the current player (10) of
`gPendX`, yet their ResolvePending attempt succeeds and changes both
`current_player_index` and the hands — the claim says every move attempt
by a non-current player fails and changes nothing. -/
theorem C7_counterexample :
    11 ≠ get_current_player gPendX ∧
    (receiveButton gPendX 11 true).1.current_player_index
      ≠ gPendX.current_player_index ∧
    (receiveButton gPendX 11 true).1.player_cards ≠ gPendX.player_cards := by
  decide

/-- C7 amended: `pass_card` by a non-current player fails with the turn
error and leaves the state unchanged, and so does the GiveCard button for
a non-current actor; the ResolvePending button, however, is addressed to
the NEXT player: an attempt by anyone else (current player included)
fails leaving the state unchanged, while the next player — who is not the
current player — succeeds. -/
theorem C7_wrong_actor :
    (∀ (g : GameA) (u c : Nat), u ≠ getCurrentA g →
        passCard g u c = .error "Not your turn") ∧
    (∀ (g : GameB) (u c : Nat), u ≠ get_current_player g →
        giveButton g u c = (g, "It is not your turn")) ∧
    (∀ (g : GameB) (u : Nat) (a : Bool), u ≠ get_next_player g →
        receiveButton g u a = (g, "This is not for you")) := by
  refine ⟨fun g u c hu => ?_, fun g u c hu => ?_, fun g u a hu => ?_⟩
  · simp [passCard, hu]
  · simp [giveButton, hu]
  · simp [receiveButton, hu]

/-- C7 witness: wrong-actor attempts on the concrete states. -/
theorem C7_witness :
    passCard SA0 11 1 = .error "Not your turn" ∧
    giveButton gBX 11 1 = (gBX, "It is not your turn") ∧
    receiveButton gPendX 10 true = (gPendX, "This is not for you") :=
  ⟨C7_wrong_actor.1 SA0 11 1 (by decide),
   C7_wrong_actor.2.1 gBX 11 1 (by decide),
   C7_wrong_actor.2.2 gPendX 10 true (by decide)⟩

/-- C10: `add_player` succeeds iff the user is new and the roster is not
full, in which case it appends the user and their name; otherwise it
returns `False` changing nothing, so the roster stays duplicate-free and
never exceeds `n`. -/
theorem C10_add_player (g : GameB) (u : Nat) (nm : String) :
    ((add_player g u nm).2 = true ↔ u ∉ g.players ∧ g.players.length < g.n) ∧
    ((add_player g u nm).2 = true →
      (add_player g u nm).1.players = g.players ++ [u] ∧
      (add_player g u nm).1.player_names = g.player_names ++ [nm]) ∧
    ((add_player g u nm).2 = false → (add_player g u nm).1 = g) ∧
    (g.players.Nodup → (add_player g u nm).1.players.Nodup) ∧
    (g.players.length ≤ g.n → (add_player g u nm).1.players.length ≤ g.n) := by
  unfold add_player
  split_ifs with h
  · refine ⟨by simp [h], fun _ => ⟨rfl, rfl⟩, fun hf => by simp at hf,
      fun hnd => ?_, fun _ => ?_⟩
    · simp only [List.nodup_append]
      exact ⟨hnd, List.nodup_singleton u, by simpa using h.1⟩
    · simp only [List.length_append, List.length_singleton]
      omega
  · exact ⟨by simp [h], fun ht => by simp at ht, fun _ => rfl,
      fun hnd => hnd, fun hle => hle⟩

/-- C10 witness: the first join on a fresh 4-player game succeeds. -/
theorem C10_witness : (add_player (mkGameB 4 (mkDeck 4)) 10 "A").2 = true :=
  (C10_add_player (mkGameB 4 (mkDeck 4)) 10 "A").1.mpr (by decide)

/-- C1 counterexample: from the reachable state `gPend`, accepting the
pending card makes the giver win and `receive_card` returns successfully
WITHOUT advancing `current_player_index` (it stays 0 instead of moving to
1), contradicting the claimed advance in the accept-win case. -/
theorem C1_counterexample :
    receive_card gPend true = some (gWin, true) ∧
    gWin.current_player_index = gPend.current_player_index ∧
    gWin.current_player_index
      ≠ (gPend.current_player_index + 1) % gPend.players.length := by decide

/-- C1 amended: `currentIndex` advances by exactly one mod N after every
successful `pass_card` (Variant A) and after every successful
`receive_card` (Variant B) EXCEPT the accept case in which the current
player wins: there `receive_card` returns early with `game_finished` set,
leaving `current_player_index` and the pending card unchanged. -/
theorem C1_turn_advance :
    (∀ (g : GameA) (u c : Nat) (g' : GameA) (h : List Nat) (w : Option Nat),
        passCard g u c = .ok (g', h, w) →
        g'.current_index = (g.current_index + 1) % g.players.length) ∧
    (∀ (g : GameB) (a : Bool) (g' : GameB),
        receive_card g a = some (g', true) →
        (g'.current_player_index
            = (g.current_player_index + 1) % g.players.length
          ∧ g'.pending_card = none) ∨
        (a = true ∧ g'.current_player_index = g.current_player_index
          ∧ g'.game_finished = true ∧ g'.pending_card = g.pending_card)) := by
  constructor
  · intro g u c g' h w hpc
    simp only [passCard] at hpc
    by_cases h1 : u ≠ getCurrentA g
    · rw [if_pos h1] at hpc
      simp at hpc
    · rw [if_neg h1] at hpc
      by_cases h2 : c ∉ currentHandA g
      · rw [if_pos h2] at hpc
        simp at hpc
      · rw [if_neg h2] at hpc
        simp only [Except.ok.injEq, Prod.mk.injEq] at hpc
        obtain ⟨hg, -, -⟩ := hpc
        rw [← hg]
  · intro g a g' hrc
    unfold receive_card at hrc
    cases hp : g.pending_card with
    | none =>
      rw [hp] at hrc
      simp at hrc
    | some pc =>
      rw [hp] at hrc
      cases a with
      | false =>
        simp only [Bool.false_eq_true, if_false, Option.some.injEq,
          Prod.mk.injEq] at hrc
        obtain ⟨hg, -⟩ := hrc
        left
        rw [← hg]
        exact ⟨rfl, rfl⟩
      | true =>
        simp only [if_true] at hrc
        split at hrc
        · split at hrc
          · simp only [Option.some.injEq, Prod.mk.injEq] at hrc
            obtain ⟨hg, -⟩ := hrc
            right
            rw [← hg]
            refine ⟨rfl, rfl, rfl, ?_⟩
            simp [hp]
          · simp only [Option.some.injEq, Prod.mk.injEq] at hrc
            obtain ⟨hg, -⟩ := hrc
            left
            rw [← hg]
            exact ⟨rfl, rfl⟩
        · exact absurd hrc (by simp)

/-- C1 witness: the first scenario move advances the index from 0 to 1;
the accept-win resolution from `gPend` takes the early-return disjunct. -/
theorem C1_witness :
    SA1.current_index = (SA0.current_index + 1) % SA0.players.length ∧
    ((gWin.current_player_index
        = (gPend.current_player_index + 1) % gPend.players.length
      ∧ gWin.pending_card = none) ∨
     (true = true ∧ gWin.current_player_index = gPend.current_player_index
      ∧ gWin.game_finished = true ∧ gWin.pending_card = gPend.pending_card)) :=
  ⟨C1_turn_advance.1 SA0 10 1 SA1 [1, 1, 1] (some 10) (by decide),
   C1_turn_advance.2 gPend true gWin (by decide)⟩

/-- C3 counterexample: `SA1` has its winner set (player 10), yet
`pass_card` by the current player 11 succeeds and mutates both the hands
and `currentIndex` — the move operations never check `winner`. -/
theorem C3_counterexample :
    SA1.winner = some 10 ∧
    passCard SA1 11 2 = Except.ok (SA2, [2, 2, 2, 1], some 10) ∧
    SA2.hands ≠ SA1.hands ∧
    SA2.current_index ≠ SA1.current_index := by decide

/-- C3 amended: a set winner is never cleared by any move operation
(though Variant A may overwrite the winning player), and the operations
do not reject moves on a finished game: whether `pass_card` accepts a
move does not depend on the `winner` field at all — terminality is only
enforced by the surrounding bot handler deleting finished games. -/
theorem C3_winner_not_terminal :
    (∀ (g : GameA) (u c : Nat) (g' : GameA) (h : List Nat) (w : Option Nat),
        passCard g u c = .ok (g', h, w) →
        g.winner.isSome = true → g'.winner.isSome = true) ∧
    (∀ (g : GameB) (c : Nat),
        (give_card g c).1.winner = g.winner ∧
        (give_card g c).1.game_finished = g.game_finished) ∧
    (∀ (g : GameB) (a : Bool) (g' : GameB) (b : Bool),
        receive_card g a = some (g', b) →
        g.winner.isSome = true → g'.winner.isSome = true) ∧
    (∀ (g : GameA) (w : Option Nat) (u c : Nat),
        (passCard { g with winner := w } u c).isOk = (passCard g u c).isOk) := by
  refine ⟨?_, ?_, ?_, ?_⟩
  · intro g u c g' h w hpc hw
    simp only [passCard] at hpc
    by_cases h1 : u ≠ getCurrentA g
    · rw [if_pos h1] at hpc
      simp at hpc
    · rw [if_neg h1] at hpc
      by_cases h2 : c ∉ currentHandA g
      · rw [if_pos h2] at hpc
        simp at hpc
      · rw [if_neg h2] at hpc
        simp only [Except.ok.injEq, Prod.mk.injEq] at hpc
        obtain ⟨hg, -, -⟩ := hpc
        rw [← hg]
        by_cases h3 : winTestA ((currentHandA g).erase c
            ++ g.previous_card.toList) = true
        · simp [h3]
        · simp only [h3]
          simpa using hw
  · intro g c
    unfold give_card
    split_ifs <;> exact ⟨rfl, rfl⟩
  · intro g a g' b hrc hw
    unfold receive_card at hrc
    cases hp : g.pending_card with
    | none =>
      rw [hp] at hrc
      simp only [Option.some.injEq, Prod.mk.injEq] at hrc
      obtain ⟨hg, -⟩ := hrc
      rw [← hg]
      exact hw
    | some pc =>
      rw [hp] at hrc
      cases a with
      | false =>
        simp only [Bool.false_eq_true, if_false, Option.some.injEq,
          Prod.mk.injEq] at hrc
        obtain ⟨hg, -⟩ := hrc
        rw [← hg]
        exact hw
      | true =>
        simp only [if_true] at hrc
        split at hrc
        · split at hrc
          · simp only [Option.some.injEq, Prod.mk.injEq] at hrc
            obtain ⟨hg, -⟩ := hrc
            rw [← hg]
            rfl
          · simp only [Option.some.injEq, Prod.mk.injEq] at hrc
            obtain ⟨hg, -⟩ := hrc
            rw [← hg]
            exact hw
        · exact absurd hrc (by simp)
  · intro g w u c
    simp only [passCard, getCurrentA, currentHandA]
    split_ifs <;> rfl

/-- C3 witness: winner survives the scenario second move, survives a
resolution on the finished game `gWin`, and the winner field does not
affect whether a move is accepted. -/
theorem C3_witness :
    SA2.winner.isSome = true ∧
    gWin2.winner.isSome = true ∧
    (passCard { SA0 with winner := some 9 } 10 1).isOk
      = (passCard SA0 10 1).isOk :=
  ⟨C3_winner_not_terminal.1 SA1 11 2 SA2 [2, 2, 2, 1] (some 10)
      (by decide) (by decide),
   C3_winner_not_terminal.2.2.1 gWin true gWin2 true (by decide) (by decide),
   C3_winner_not_terminal.2.2.2 SA0 (some 9) 10 1⟩

/-- C8: for any roster of N players (4 and 6 within bounds) and any
shuffle, initialization builds a deck of 4N cards with four copies of each
rank 1..N, deals 4 cards to each of the N players consuming the whole
deck (the multiset union of the hands is the full deck), and starts with
index 0, nothing in transit and no winner. Covers `game.py` `__init__`
and `bot.py` `deal_cards` on a full roster. -/
theorem C8_initialization (N : Nat) (players deck : List Nat)
    (h4 : 4 ≤ N) (h6 : N ≤ 6) (hp : players.length = N)
    (hd : deck.Perm (mkDeck N)) :
    ((mkDeck N).length = 4 * N ∧
     (∀ v, 1 ≤ v → v ≤ N → (mkDeck N).count v = 4)) ∧
    ((initGameA players deck).hands.length = N ∧
     (∀ h ∈ (initGameA players deck).hands, h.length = 4) ∧
     (initGameA players deck).hands.flatten.Perm (mkDeck N) ∧
     (∀ v, 1 ≤ v → v ≤ N →
        (initGameA players deck).hands.flatten.count v = 4) ∧
     (initGameA players deck).current_index = 0 ∧
     (initGameA players deck).previous_card = none ∧
     (initGameA players deck).winner = none) ∧
    (∀ g : GameB, g.players.length = N → g.deck = deck →
      ((deal_cards g).player_cards.length = N ∧
       (∀ h ∈ (deal_cards g).player_cards, h.length = 4) ∧
       (deal_cards g).player_cards.flatten.Perm (mkDeck N))) ∧
    ((mkGameB N deck).current_player_index = 0 ∧
     (mkGameB N deck).pending_card = none ∧
     (mkGameB N deck).winner = none) := by
  have hdlen : deck.length = 4 * N := by
    rw [hd.length_eq, mkDeck_length]
  have hflatA : (initGameA players deck).hands.flatten = deck.reverse := by
    show (dealA deck.reverse players.length).flatten = deck.reverse
    rw [dealA_flatten, hp]
    rw [List.take_of_length_le (by simp [hdlen])]
  have hpermA : (initGameA players deck).hands.flatten.Perm (mkDeck N) := by
    rw [hflatA]
    exact (List.reverse_perm deck).trans hd
  refine ⟨⟨mkDeck_length N, fun v hv1 hv2 => ?_⟩,
    ⟨?_, fun h hm => ?_, hpermA, fun v hv1 hv2 => ?_, rfl, rfl, rfl⟩,
    fun g hgp hgd => ⟨?_, fun h hm => ?_, ?_⟩, rfl, rfl, rfl⟩
  · rw [mkDeck_count, if_pos ⟨hv1, hv2⟩]
  · show (dealA deck.reverse players.length).length = N
    rw [dealA_length, hp]
  · exact dealA_mem_length deck.reverse players.length h
      (by simp [hdlen, hp]) hm
  · rw [hpermA.count_eq, mkDeck_count, if_pos ⟨hv1, hv2⟩]
  · simp [deal_cards, hgp]
  · simp only [deal_cards] at hm
    exact dealtB_mem_length g.deck g.players.length h
      (by rw [hgd, hdlen, hgp]) hm
  · simp only [deal_cards]
    rw [dealtB_flatten, hgp, hgd]
    rw [List.take_of_length_le (by rw [hdlen])]
    exact hd

/-- C8 witness: instantiated at N = 4, roster 10..13 and the identity
shuffle; the Variant B conjunct applied to the started game `gB4`. -/
theorem C8_witness :
    (mkDeck 4).length = 4 * 4 ∧
    (deal_cards gB4).player_cards.length = 4 :=
  ⟨(C8_initialization 4 [10, 11, 12, 13] (mkDeck 4) (by decide) (by decide)
      (by decide) (List.Perm.refl _)).1.1,
   ((C8_initialization 4 [10, 11, 12, 13] (mkDeck 4) (by decide) (by decide)
      (by decide) (List.Perm.refl _)).2.2.1 gB4 (by decide) (by decide)).1⟩

theorem lobbyB_inv (g : GameB) (hg : LobbyB g) :
    g.deck.length = 4 * g.n ∧ g.players.length ≤ g.n := by
  induction hg with
  | init n deck hd =>
    refine ⟨?_, by simp [mkGameB]⟩
    show deck.length = 4 * n
    rw [hd.length_eq, mkDeck_length]
  | join g u nm hg ih =>
    unfold add_player
    split_ifs with h
    · refine ⟨ih.1, ?_⟩
      have := h.2
      simp only [List.length_append, List.length_singleton]
      omega
    · exact ih

theorem accept_sum (P : List (List Nat)) (cur nxt pc : Nat)
    (hm : pc ∈ P.getD cur []) (hnxt : nxt < P.length) :
    (((P.set cur ((P.getD cur []).erase pc)).set nxt
        ((P.set cur ((P.getD cur []).erase pc)).getD nxt [] ++ [pc])).map
      List.length).sum = (P.map List.length).sum := by
  have hcur : cur < P.length := mem_getD_lt P cur pc hm
  have h1 := sum_map_length_set P cur ((P.getD cur []).erase pc) hcur
  have hlen1 : (P.set cur ((P.getD cur []).erase pc)).length = P.length := by
    simp
  have h2 := sum_map_length_set (P.set cur ((P.getD cur []).erase pc)) nxt
    ((P.set cur ((P.getD cur []).erase pc)).getD nxt [] ++ [pc])
    (by rw [hlen1]; exact hnxt)
  have he : ((P.getD cur []).erase pc).length = (P.getD cur []).length - 1 :=
    List.length_erase_of_mem hm
  have hpos : 0 < (P.getD cur []).length :=
    List.length_pos.mpr (List.ne_nil_of_mem hm)
  simp only [List.length_append, List.length_singleton] at h2
  omega

theorem reachB_inv (g : GameB) (hg : ReachB g) :
    totalB g = 4 * g.players.length ∧
    g.player_cards.length = g.players.length ∧
    0 < g.players.length := by
  induction hg with
  | start g hg hs =>
    obtain ⟨hdl, hpn⟩ := lobbyB_inv g hg
    unfold start_game at hs ⊢
    split_ifs at hs ⊢ with hc
    · obtain ⟨h4p, -⟩ := hc
      refine ⟨?_, ?_, ?_⟩
      · show totalB { deal_cards g with game_started := true } = _
        unfold totalB deal_cards
        simp only []
        rw [← List.length_flatten, dealtB_flatten, List.length_take, hdl]
        exact min_eq_left (by omega)
      · simp [deal_cards]
      · simp only [deal_cards]
        omega
  | give g c hg hs ih =>
    unfold give_card
    split_ifs
    · exact ih
    · exact ih
  | recv g g' a b hg hrc ih =>
    unfold receive_card at hrc
    cases hp : g.pending_card with
    | none =>
      rw [hp] at hrc
      simp only [Option.some.injEq, Prod.mk.injEq] at hrc
      obtain ⟨hg2, -⟩ := hrc
      rw [← hg2]
      exact ih
    | some pc =>
      rw [hp] at hrc
      cases a with
      | false =>
        simp only [Bool.false_eq_true, if_false, Option.some.injEq,
          Prod.mk.injEq] at hrc
        obtain ⟨hg2, -⟩ := hrc
        rw [← hg2]
        exact ih
      | true =>
        simp only [if_true] at hrc
        split at hrc
        · rename_i hmem
          have hnxt : (g.current_player_index + 1) % g.players.length
              < g.player_cards.length := by
            rw [ih.2.1]
            exact Nat.mod_lt _ ih.2.2
          split at hrc
          · simp only [Option.some.injEq, Prod.mk.injEq] at hrc
            obtain ⟨hg2, -⟩ := hrc
            rw [← hg2]
            refine ⟨?_, ?_, ih.2.2⟩
            · show (((g.player_cards.set _ _).set _ _).map List.length).sum
                = 4 * g.players.length
              rw [accept_sum g.player_cards g.current_player_index _ pc hmem
                hnxt]
              exact ih.1
            · simp only [List.length_set]
              exact ih.2.1
          · simp only [Option.some.injEq, Prod.mk.injEq] at hrc
            obtain ⟨hg2, -⟩ := hrc
            rw [← hg2]
            refine ⟨?_, ?_, ih.2.2⟩
            · show (((g.player_cards.set _ _).set _ _).map List.length).sum
                = 4 * g.players.length
              rw [accept_sum g.player_cards g.current_player_index _ pc hmem
                hnxt]
              exact ih.1
            · simp only [List.length_set]
              exact ih.2.1
        · exact absurd hrc (by simp)

theorem reachA_inv (g : GameA) (hg : ReachA g) :
    totalA g = 4 * g.players.length := by
  induction hg with
  | init players deck hd =>
    unfold totalA initGameA
    simp only []
    rw [← List.length_flatten, dealA_flatten, List.length_take,
      List.length_reverse, hd.length_eq, mkDeck_length, Nat.min_self]
    rfl
  | step g g' u c h w hg hs ih =>
    simp only [passCard, currentHandA] at hs
    by_cases h1 : u ≠ getCurrentA g
    · rw [if_pos h1] at hs
      simp at hs
    · rw [if_neg h1] at hs
      by_cases h2 : c ∉ g.hands.getD g.current_index []
      · rw [if_pos h2] at hs
        simp at hs
      · rw [if_neg h2] at hs
        push_neg at h2
        simp only [Except.ok.injEq, Prod.mk.injEq] at hs
        obtain ⟨hg2, -, -⟩ := hs
        rw [← hg2]
        have hcur : g.current_index < g.hands.length :=
          mem_getD_lt g.hands g.current_index c h2
        have hpos : 0 < (g.hands.getD g.current_index []).length :=
          List.length_pos.mpr (List.ne_nil_of_mem h2)
        have he : ((g.hands.getD g.current_index []).erase c).length
            = (g.hands.getD g.current_index []).length - 1 :=
          List.length_erase_of_mem h2
        unfold totalA
        unfold totalA at ih
        simp only []
        have h1s := sum_map_length_set g.hands g.current_index
          ((g.hands.getD g.current_index []).erase c
            ++ g.previous_card.toList) hcur
        simp only [List.length_append] at h1s
        have hc1 : (some c : Option Nat).toList.length = 1 := rfl
        omega

theorem lobbyB_lobby4 : LobbyB lobby4 :=
  LobbyB.join _ 13 "D" (LobbyB.join _ 12 "C" (LobbyB.join _ 11 "B"
    (LobbyB.join _ 10 "A" (LobbyB.init 4 (mkDeck 4) (List.Perm.refl _)))))

theorem reachB_gB4 : ReachB gB4 :=
  ReachB.start lobby4 lobbyB_lobby4 (by decide)

/-- C9 counterexample: `gPend` is reachable (join 4 players, start, one
successful `give_card`), a card is pending, but the hands still hold all
16 cards, so hands plus the in-transit pending card is 17, not
`4 * 4` — the pending card is still inside the giver's hand. -/
theorem C9_counterexample :
    ReachB gPend ∧ gPend.pending_card.isSome = true ∧
    totalB gPend + 1 ≠ 4 * gPend.players.length := by
  refine ⟨?_, by decide, by decide⟩
  exact ReachB.give gB4 1 reachB_gB4 (by decide)

/-- C9 amended: in every reachable state the cards are conserved, but the
transit term differs by variant: in Variant A the hands plus the
`previous_card` in transit total `4 * N`; in Variant B the hands ALONE
total `4 * (number of joined players)` at all times — the pending card
stays in the giver's hand until accepted, so counting it again would
overshoot by one. -/
theorem C9_conservation :
    (∀ g : GameA, ReachA g → totalA g = 4 * g.players.length) ∧
    (∀ g : GameB, ReachB g → totalB g = 4 * g.players.length) :=
  ⟨fun g hg => reachA_inv g hg, fun g hg => (reachB_inv g hg).1⟩

/-- C9 witness: the conservation law evaluated on the freshly initialized
Variant A game and on the started Variant B game `gB4`. -/
theorem C9_witness :
    totalA (initGameA [10, 11, 12, 13] (mkDeck 4))
      = 4 * (initGameA [10, 11, 12, 13] (mkDeck 4)).players.length ∧
    totalB gB4 = 4 * gB4.players.length :=
  ⟨C9_conservation.1 (initGameA [10, 11, 12, 13] (mkDeck 4))
      (ReachA.init [10, 11, 12, 13] (mkDeck 4) (List.Perm.refl _)),
   C9_conservation.2 gB4 reachB_gB4⟩
